import Mathlib

/-!
# Verification of the diabetes prediction gateway

Shallow embedding of `src/diabetes_prediction_app.py`: the request
validator (`validate_input_data`), the record builder
(`build_dataframe_from_request`), the payload encoders
(`create_tf_serving_json` and the `dataframe_split` payload built in
`score_model`), the endpoint invoker's error classification
(`score_model`), the response normalizer (the extraction block inside
`predict`), and the `/predict` handler's control flow (`predict`).

Python values arriving in a JSON request body, and JSON values returned
by the scoring endpoint, are modelled by the inductive type `Json`.
Python floats are modelled as rationals: none of the verified claims
depends on floating-point rounding. A Python `dict` is modelled as an
association list with unique-key lookup semantics; `Config`'s ambient
globals (`MODEL_FEATURES`, `DEFAULT_VALUES`, `REQUEST_TIMEOUT`) become
an explicit record passed to each function.
-/

namespace DPA

/-- A JSON value: the type of parsed request bodies and of parsed
responses from the model endpoint. -/
inductive Json where
  | null : Json
  | bool (b : Bool) : Json
  | num (q : ℚ) : Json
  | str (s : String) : Json
  | arr (items : List Json) : Json
  | obj (fields : List (String × Json)) : Json
deriving Repr

/-- A candidate record: the parsed JSON object of a `/predict` request
body, a mapping from feature name to an untrusted value. -/
def Record := List (String × Json)

/-- Static configuration (`config.Config`): the ordered feature list
`MODEL_FEATURES`, the default-value mapping `DEFAULT_VALUES` (feature
name to numeric default), and `REQUEST_TIMEOUT` in seconds. -/
structure Config where
  MODEL_FEATURES : List String
  DEFAULT_VALUES : List (String × ℚ)
  REQUEST_TIMEOUT : ℕ

/-- Python `dict` lookup on a record (`data[feature]` / membership
`feature in data`): first matching key wins, matching a dict's
unique-key semantics. -/
def lookupRecord : Record → String → Option Json
  | [], _ => none
  | (k, v) :: rest, f => if k = f then some v else lookupRecord rest f

/-- `Config.DEFAULT_VALUES.get(feature)`: dict lookup in the numeric
defaults map. -/
def lookupDefault : List (String × ℚ) → String → Option ℚ
  | [], _ => none
  | (k, v) :: rest, f => if k = f then some v else lookupDefault rest f

/-- One decimal digit. -/
def isDigitCh (c : Char) : Bool := '0' ≤ c && c ≤ '9'

/-- Value of a run of decimal digits (most significant first). -/
def natOfDigits (l : List Char) : ℕ :=
  l.foldl (fun n c => 10 * n + (c.toNat - '0'.toNat)) 0

/-- Parse an unsigned decimal literal `digits [. digits]` with at least
one digit, as Python's `float` does on such strings. -/
def parseUnsigned (l : List Char) : Option ℚ :=
  let intPart := l.takeWhile isDigitCh
  let rest := l.dropWhile isDigitCh
  match rest with
  | [] => if intPart.isEmpty then none else some (natOfDigits intPart)
  | '.' :: frac =>
      if frac.all isDigitCh && !(intPart.isEmpty && frac.isEmpty) then
        some ((natOfDigits intPart : ℚ) + (natOfDigits frac : ℚ) / (10 ^ frac.length))
      else none
  | _ => none

/-- Parse a signed decimal string. Models the sign/digits/decimal-point
fragment of Python's `float(str)` grammar; scientific notation,
`inf`/`nan`, underscores and surrounding whitespace are outside every
input exercised by the claims. -/
def parseDecimal (s : String) : Option ℚ :=
  match s.toList with
  | '-' :: rest => (parseUnsigned rest).map (fun q => -q)
  | '+' :: rest => parseUnsigned rest
  | l => parseUnsigned l

/-- Python `float(v)` on a JSON value: succeeds on numbers, booleans
(`bool` is an `int` subclass) and numeric strings; raises `ValueError`
or `TypeError` (modelled as `none`) on non-numeric strings, `None`,
lists and dicts. -/
def tryFloat : Json → Option ℚ
  | Json.num q => some q
  | Json.bool b => some (if b then 1 else 0)
  | Json.str s => parseDecimal s
  | Json.null => none
  | Json.arr _ => none
  | Json.obj _ => none

/-- The validation loop of `validate_input_data`: scan features in
schema order, return the first feature whose value fails `float`
coercion. The `none` lookup branch is unreachable from
`validate_input_data` (the missing-features check has already passed
when the loop runs, so `data[feature]` cannot raise `KeyError`); it is
modelled as reporting the feature. -/
def firstBad (data : Record) : List String → Option String
  | [] => none
  | f :: fs =>
      match lookupRecord data f with
      | some v => if (tryFloat v).isSome then firstBad data fs else some f
      | none => some f

/-- `validate_input_data(data)`: collect every schema feature absent
from the record; if any, fail with the missing-features message naming
them all; otherwise fail with the invalid-value message on the first
feature whose value does not coerce to float; otherwise succeed with an
empty message. -/
def validate_input_data (cfg : Config) (data : Record) : Bool × String :=
  let missing := cfg.MODEL_FEATURES.filter (fun f => (lookupRecord data f).isNone)
  if missing ≠ [] then
    (false, "Missing required features: " ++ String.intercalate ", " missing)
  else
    match firstBad data cfg.MODEL_FEATURES with
    | some f => (false, "Invalid value for feature '" ++ f ++ "': must be a number")
    | none => (true, "")

/-- A pandas `DataFrame` as used by the gateway: column labels, row
index, and row-major data. `to_dict(orient='split')` exposes exactly
these three components. -/
structure DataFrame where
  columns : List String
  index : List ℕ
  data : List (List ℚ)
deriving Repr

/-- Keys of a Python dict built by inserting a list of keys in order:
first occurrence wins for position, duplicates are dropped. -/
def firstDedup : List String → List String :=
  go []
where
  /-- `seen` accumulates keys already inserted. -/
  go (seen : List String) : List String → List String
    | [] => []
    | f :: fs => if f ∈ seen then go seen fs else f :: go (f :: seen) fs

/-- Evaluate `g` left to right, failing at the first failure — the
behaviour of a Python comprehension whose element expression raises. -/
def mapOpt (g : α → Option β) : List α → Option (List β)
  | [] => some []
  | a :: as =>
      match g a with
      | none => none
      | some b => (mapOpt g as).map (fun bs => b :: bs)

/-- `data.get(feature, Config.DEFAULT_VALUES.get(feature, 0.0))`: the
raw value `build_dataframe_from_request` coerces for one feature — the
record's entry if present, else the configured default, else `0.0`. -/
def rawFor (cfg : Config) (data : Record) (f : String) : Json :=
  match lookupRecord data f with
  | some v => v
  | none => Json.num ((lookupDefault cfg.DEFAULT_VALUES f).getD 0)

/-- `build_dataframe_from_request(data)`: build
`{feature: float(raw value) for feature in Config.MODEL_FEATURES}` and
wrap it as the single row of a DataFrame. The dict comprehension keeps
the first occurrence of a duplicated feature name; because the value
depends only on the name, a duplicate would overwrite with an equal
value, so iterating over `firstDedup` of the feature list is
extensionally the comprehension. `float` may raise (`none`): the
exception is not caught here and propagates to the caller. -/
def build_dataframe_from_request (cfg : Config) (data : Record) : Option DataFrame :=
  let cols := firstDedup cfg.MODEL_FEATURES
  (mapOpt (fun f => tryFloat (rawFor cfg data f)) cols).map
    (fun row => { columns := cols, index := [0], data := [row] })

/-- `create_tf_serving_json` on a dict: wrap each feature's single
value as a one-element list under an `inputs` key. -/
def create_tf_serving_json (data : Record) : Json :=
  Json.obj [("inputs", Json.obj (data.map (fun p => (p.1, Json.arr [p.2]))))]

/-- `DataFrame.to_dict(orient='split')` as a JSON object with
`columns`, `index` and `data` keys. -/
def dfSplit (df : DataFrame) : Json :=
  Json.obj
    [("columns", Json.arr (df.columns.map Json.str)),
     ("index", Json.arr (df.index.map (fun i => Json.num i))),
     ("data", Json.arr (df.data.map (fun row => Json.arr (row.map Json.num))))]

/-- `create_tf_serving_json` on a DataFrame: the `dataframe_split`
wire shape. -/
def create_tf_serving_json_df (df : DataFrame) : Json :=
  Json.obj [("dataframe_split", dfSplit df)]

/-- The payload `score_model` serializes (line 48): identical in shape
to the DataFrame branch of `create_tf_serving_json`. -/
def scoreModelPayload (df : DataFrame) : Json :=
  Json.obj [("dataframe_split", dfSplit df)]

/-- The exception class raised out of `score_model` or the outbound
call, as far as `predict`'s handlers distinguish them:
`requests.exceptions.RequestException` (and subclasses) versus any
other `Exception`. -/
inductive Exc where
  | requestException (msg : String) : Exc
  | generic (msg : String) : Exc
deriving Repr

/-- Outcome of the single `requests.post` call in `score_model`:
a timeout, a connection failure, some other `RequestException` raised
by the client, or a received response with status code, parsed JSON
body and raw text. (Response bodies are modelled as already parsed;
no claim concerns a body that is not valid JSON.) -/
inductive PostResult where
  | timeout : PostResult
  | connError : PostResult
  | otherReqExc (msg : String) : PostResult
  | resp (status : ℕ) (body : Json) (text : String) : PostResult
deriving Repr

/-- `score_model(dataset)`, with the network outcome made explicit:
`Timeout` and `ConnectionError` are caught and re-raised as plain
`Exception`s with descriptive messages; any other `RequestException`
propagates unchanged; a non-200 response raises a plain `Exception`
embedding status and body text; a 200 response yields the parsed JSON
body. -/
def score_model (cfg : Config) (dataset : DataFrame) (net : PostResult) : Except Exc Json :=
  let _payload := scoreModelPayload dataset
  match net with
  | PostResult.timeout =>
      Except.error (Exc.generic
        ("Request timed out after " ++ toString cfg.REQUEST_TIMEOUT ++
         " seconds. The model endpoint may be slow or unavailable."))
  | PostResult.connError =>
      Except.error (Exc.generic
        "Failed to connect to the model endpoint. Check your internet connection and endpoint URL.")
  | PostResult.otherReqExc m => Except.error (Exc.requestException m)
  | PostResult.resp status body text =>
      if status ≠ 200 then
        Except.error (Exc.generic
          ("Request failed with status " ++ toString status ++ ". Response: " ++ text))
      else Except.ok body

/-- Python `value[0]`: first element of a list (raising `IndexError`
when empty), first character of a string, `KeyError` on a JSON object
(string keys only, so key `0` is absent), `TypeError` on
numbers, booleans and `None`. `Except.error` carries the CPython
exception text. -/
def index0 : Json → Except String Json
  | Json.arr [] => Except.error "list index out of range"
  | Json.arr (x :: _) => Except.ok x
  | Json.str s =>
      if s.isEmpty then Except.error "string index out of range"
      else Except.ok (Json.str (String.singleton (s.get 0)))
  | Json.obj _ => Except.error "0"
  | Json.num _ => Except.error "'float' object is not subscriptable"
  | Json.bool _ => Except.error "'bool' object is not subscriptable"
  | Json.null => Except.error "'NoneType' object is not subscriptable"

/-- The response-extraction block of `predict` (lines 90–96): if the
result is a dict containing `predictions`, take that value's first
element; else if a dict containing `data`, take that value's first
element; else the result itself. The indexing may raise (error case),
which `predict`'s generic handler turns into a 400. -/
def normalize (result : Json) : Except String Json :=
  match result with
  | Json.obj fields =>
      if (fields.map Prod.fst).contains "predictions" then
        index0 ((lookupRecord fields "predictions").getD Json.null)
      else if (fields.map Prod.fst).contains "data" then
        index0 ((lookupRecord fields "data").getD Json.null)
      else Except.ok (Json.obj fields)
  | other => Except.ok other

/-- The JSON error envelope `{'success': False, 'error': msg}`. -/
def errJson (msg : String) : Json :=
  Json.obj [("success", Json.bool false), ("error", Json.str msg)]

/-- The JSON success envelope `{'success': True, 'prediction': v}`. -/
def okJson (v : Json) : Json :=
  Json.obj [("success", Json.bool true), ("prediction", v)]

/-- The `/predict` handler for a request body that parsed to a JSON
object (`validate_input_data` is typed over `Dict`): status code and
JSON body. `if not data` is dict truthiness — an empty dict is falsy.
Exceptions route through `except RequestException` (500, network
message) before `except Exception` (400, generic message). -/
def predict (cfg : Config) (data : Record) (net : PostResult) : ℕ × Json :=
  if data.isEmpty then
    (400, errJson "No data provided in request body")
  else
    let v := validate_input_data cfg data
    if !v.1 then
      (400, errJson v.2)
    else
      match build_dataframe_from_request cfg data with
      | none =>
          -- float() raised inside the comprehension; unreachable after
          -- successful validation (proved below), so the exception text
          -- is never observable through this handler.
          (400, errJson "An error occurred: float conversion failed")
      | some df =>
          match score_model cfg df net with
          | Except.error (Exc.requestException m) =>
              (500, errJson ("Network error while calling model endpoint: " ++ m))
          | Except.error (Exc.generic m) =>
              (400, errJson ("An error occurred: " ++ m))
          | Except.ok result =>
              match normalize result with
              | Except.error m => (400, errJson ("An error occurred: " ++ m))
              | Except.ok v => (200, okJson v)


/-- Key membership in a record agrees with lookup success. -/
theorem contains_eq_isSome_lookupRecord (fields : Record) (k : String) :
    ((fields.map Prod.fst).contains k) = (lookupRecord fields k).isSome := by
  induction fields with
  | nil => rfl
  | cons p rest ih =>
      obtain ⟨a, v⟩ := p
      by_cases h : a = k
      · subst h
        simp [lookupRecord, List.contains_cons]
      · have h2 : (k == a) = false := beq_eq_false_iff_ne.mpr (fun hk => h hk.symm)
        simp only [List.map_cons, List.contains_cons, h2, Bool.false_or,
          lookupRecord, if_neg h]
        exact ih

/-- The missing-features filter is empty exactly when every feature
looks up successfully. -/
theorem filter_missing_eq_nil (data : Record) :
    ∀ l : List String,
      (l.filter (fun f => (lookupRecord data f).isNone) = [] ↔
        ∀ f ∈ l, (lookupRecord data f).isSome) := by
  intro l
  induction l with
  | nil => simp
  | cons f fs ih =>
      by_cases h : (lookupRecord data f).isNone
      · simp only [List.filter_cons, h, if_pos rfl]
        constructor
        · intro hcons
          exact absurd hcons (List.cons_ne_nil _ _)
        · intro hall
          have := hall f (List.mem_cons_self f fs)
          rw [Option.isNone_iff_eq_none] at h
          rw [h] at this
          exact absurd this (by simp)
      · have h2 : (lookupRecord data f).isSome := by
          cases hl : lookupRecord data f with
          | none => rw [hl] at h; exact absurd rfl h
          | some v => rfl
        simp [List.filter_cons, h, ih, h2]

/-- The validation loop finds nothing exactly when every scanned
feature is present with a coercible value. -/
theorem firstBad_eq_none_iff (data : Record) :
    ∀ l : List String,
      (firstBad data l = none ↔
        ∀ f ∈ l, ∃ v, lookupRecord data f = some v ∧ (tryFloat v).isSome) := by
  intro l
  induction l with
  | nil => simp [firstBad]
  | cons f fs ih =>
      cases hl : lookupRecord data f with
      | none =>
          constructor
          · intro h
            simp [firstBad, hl] at h
          · intro hall
            obtain ⟨v, hv, _⟩ := hall f (List.mem_cons_self f fs)
            rw [hl] at hv
            cases hv
      | some v =>
          by_cases hc : (tryFloat v).isSome
          · constructor
            · intro h g hg
              rcases List.mem_cons.mp hg with hg | hg
              · subst hg
                exact ⟨v, hl, hc⟩
              · have h2 : firstBad data fs = none := by
                  simpa [firstBad, hl, hc] using h
                exact (ih.mp h2) g hg
            · intro hall
              have h2 : firstBad data fs = none :=
                ih.mpr (fun g hg => hall g (List.mem_cons_of_mem f hg))
              simp [firstBad, hl, hc, h2]
          · constructor
            · intro h
              have h2 : firstBad data (f :: fs) = some f := by
                simp [firstBad, hl, hc]
              rw [h] at h2
              cases h2
            · intro hall
              obtain ⟨w, hw, hcw⟩ := hall f (List.mem_cons_self f fs)
              rw [hl] at hw
              injection hw with hw
              subst hw
              exact absurd hcw hc

/-- A prefix of present, coercible features is skipped by the
validation loop. -/
theorem firstBad_append_good (data : Record) (pre l : List String)
    (h : ∀ g ∈ pre, ∃ v, lookupRecord data g = some v ∧ (tryFloat v).isSome) :
    firstBad data (pre ++ l) = firstBad data l := by
  induction pre with
  | nil => rfl
  | cons g gs ih =>
      obtain ⟨v, hv, hc⟩ := h g (List.mem_cons_self g gs)
      simp only [List.cons_append, firstBad, hv, hc, if_pos rfl]
      exact ih (fun x hx => h x (List.mem_cons_of_mem g hx))

/-- Successful validation means every schema feature is present with a
float-coercible value. -/
theorem validate_fst_true_iff (cfg : Config) (data : Record) :
    (validate_input_data cfg data).1 = true ↔
      ∀ f ∈ cfg.MODEL_FEATURES, ∃ v, lookupRecord data f = some v ∧ (tryFloat v).isSome := by
  constructor
  · intro h
    by_cases hm : cfg.MODEL_FEATURES.filter (fun f => (lookupRecord data f).isNone) = []
    · cases hb : firstBad data cfg.MODEL_FEATURES with
      | some f =>
          exfalso
          unfold validate_input_data at h
          simp [hm, hb] at h
      | none => exact (firstBad_eq_none_iff data cfg.MODEL_FEATURES).mp hb
    · exfalso
      unfold validate_input_data at h
      simp [hm] at h
  · intro hgood
    have hm : cfg.MODEL_FEATURES.filter (fun f => (lookupRecord data f).isNone) = [] :=
      (filter_missing_eq_nil data cfg.MODEL_FEATURES).mpr (fun f hf => by
        obtain ⟨v, hv, _⟩ := hgood f hf
        rw [hv]
        rfl)
    have hb : firstBad data cfg.MODEL_FEATURES = none :=
      (firstBad_eq_none_iff data cfg.MODEL_FEATURES).mpr hgood
    unfold validate_input_data
    simp [hm, hb]

/-- When at least one feature is missing, validation fails with the
message naming the filtered missing list. -/
theorem validate_missing_eq (cfg : Config) (data : Record)
    (hm : cfg.MODEL_FEATURES.filter (fun f => (lookupRecord data f).isNone) ≠ []) :
    validate_input_data cfg data =
      (false, "Missing required features: " ++ String.intercalate ", "
        (cfg.MODEL_FEATURES.filter (fun f => (lookupRecord data f).isNone))) := by
  unfold validate_input_data
  simp [hm]

/-- Membership in the missing list: a feature of the schema absent from
the record. -/
theorem mem_missing_iff (cfg : Config) (data : Record) (g : String) :
    g ∈ cfg.MODEL_FEATURES.filter (fun f => (lookupRecord data f).isNone) ↔
      g ∈ cfg.MODEL_FEATURES ∧ lookupRecord data g = none := by
  simp [List.mem_filter, Option.isNone_iff_eq_none]

/-- `mapOpt` succeeds with `bs` exactly when `g` succeeds pointwise. -/
theorem mapOpt_eq_some_iff (g : α → Option β) :
    ∀ (l : List α) (bs : List β),
      mapOpt g l = some bs ↔ List.Forall₂ (fun a b => g a = some b) l bs := by
  intro l
  induction l with
  | nil =>
      intro bs
      constructor
      · intro h
        injection h with h
        subst h
        exact List.Forall₂.nil
      · intro h
        cases h
        rfl
  | cons a as ih =>
      intro bs
      constructor
      · intro h
        cases hg : g a with
        | none =>
            rw [show mapOpt g (a :: as) = none by simp [mapOpt, hg]] at h
            cases h
        | some b =>
            have h2 : (mapOpt g as).map (fun bs2 => b :: bs2) = some bs := by
              simpa [mapOpt, hg] using h
            obtain ⟨bs2, hbs2, hcons⟩ := Option.map_eq_some'.mp h2
            exact hcons ▸ List.Forall₂.cons hg ((ih bs2).mp hbs2)
      · intro h
        cases h with
        | cons hab htail =>
            simp [mapOpt, hab, (ih _).mpr htail]

/-- `mapOpt` succeeds whenever `g` succeeds on every element. -/
theorem mapOpt_exists_of_all (g : α → Option β) :
    ∀ l : List α, (∀ a ∈ l, (g a).isSome) → ∃ bs, mapOpt g l = some bs := by
  intro l
  induction l with
  | nil => exact fun _ => ⟨[], rfl⟩
  | cons a as ih =>
      intro h
      obtain ⟨b, hb⟩ := Option.isSome_iff_exists.mp (h a (List.mem_cons_self a as))
      obtain ⟨bs, hbs⟩ := ih (fun x hx => h x (List.mem_cons_of_mem a hx))
      exact ⟨b :: bs, by simp [mapOpt, hb, hbs]⟩

/-- Every key of the deduplicated list comes from the original list. -/
theorem firstDedup_go_subset :
    ∀ (l seen : List String) (x : String), x ∈ firstDedup.go seen l → x ∈ l := by
  intro l
  induction l with
  | nil =>
      intro seen x h
      cases h
  | cons f fs ih =>
      intro seen x h
      by_cases hf : f ∈ seen
      · rw [show firstDedup.go seen (f :: fs) = firstDedup.go seen fs by
          simp [firstDedup.go, hf]] at h
        exact List.mem_cons_of_mem f (ih seen x h)
      · rw [show firstDedup.go seen (f :: fs) = f :: firstDedup.go (f :: seen) fs by
          simp [firstDedup.go, hf]] at h
        rcases List.mem_cons.mp h with h | h
        · exact h ▸ List.mem_cons_self f fs
        · exact List.mem_cons_of_mem f (ih (f :: seen) x h)

/-- Deduplication is the identity on a duplicate-free list disjoint
from the seen accumulator. -/
theorem firstDedup_go_eq_self :
    ∀ (l seen : List String), l.Nodup → (∀ x ∈ l, x ∉ seen) →
      firstDedup.go seen l = l := by
  intro l
  induction l with
  | nil =>
      intro seen _ _
      rfl
  | cons f fs ih =>
      intro seen hnd hdis
      have hf : f ∉ seen := hdis f (List.mem_cons_self f fs)
      rw [List.nodup_cons] at hnd
      rw [show firstDedup.go seen (f :: fs) = f :: firstDedup.go (f :: seen) fs by
        simp [firstDedup.go, hf]]
      rw [ih (f :: seen) hnd.2 ?_]
      intro x hx hmem
      rcases List.mem_cons.mp hmem with h | h
      · exact hnd.1 (h ▸ hx)
      · exact hdis x (List.mem_cons_of_mem f hx) h

/-- Deduplication is the identity on a duplicate-free list. -/
theorem firstDedup_eq_self (l : List String) (h : l.Nodup) : firstDedup l = l :=
  firstDedup_go_eq_self l [] h (fun x _ => List.not_mem_nil x)

/-- Deduplicated keys are a subset of the original keys. -/
theorem firstDedup_subset (l : List String) (x : String) :
    x ∈ firstDedup l → x ∈ l :=
  firstDedup_go_subset l [] x

/-- C1: for every schema and record, if the record contains every
schema feature with a float-coercible value then validation succeeds;
if one or more schema features are absent, validation fails with the
missing-features message naming a nonempty list whose members are
exactly the schema features absent from the record. -/
theorem C1_validate_success_and_missing (cfg : Config) (data : Record) :
    ((∀ f ∈ cfg.MODEL_FEATURES, ∃ v, lookupRecord data f = some v ∧ (tryFloat v).isSome) →
      validate_input_data cfg data = (true, "")) ∧
    ((∃ f ∈ cfg.MODEL_FEATURES, lookupRecord data f = none) →
      validate_input_data cfg data =
        (false, "Missing required features: " ++ String.intercalate ", "
          (cfg.MODEL_FEATURES.filter (fun g => (lookupRecord data g).isNone))) ∧
      cfg.MODEL_FEATURES.filter (fun g => (lookupRecord data g).isNone) ≠ [] ∧
      ∀ g, (g ∈ cfg.MODEL_FEATURES.filter (fun g2 => (lookupRecord data g2).isNone) ↔
        g ∈ cfg.MODEL_FEATURES ∧ lookupRecord data g = none)) := by
  constructor
  · intro hgood
    have hm : cfg.MODEL_FEATURES.filter (fun f => (lookupRecord data f).isNone) = [] :=
      (filter_missing_eq_nil data cfg.MODEL_FEATURES).mpr (fun f hf => by
        obtain ⟨v, hv, _⟩ := hgood f hf
        rw [hv]
        rfl)
    have hb : firstBad data cfg.MODEL_FEATURES = none :=
      (firstBad_eq_none_iff data cfg.MODEL_FEATURES).mpr hgood
    unfold validate_input_data
    simp [hm, hb]
  · rintro ⟨f, hf, habs⟩
    have hmem : f ∈ cfg.MODEL_FEATURES.filter (fun g => (lookupRecord data g).isNone) :=
      (mem_missing_iff cfg data f).mpr ⟨hf, habs⟩
    have hne : cfg.MODEL_FEATURES.filter (fun g => (lookupRecord data g).isNone) ≠ [] :=
      fun h => by rw [h] at hmem; cases hmem
    exact ⟨validate_missing_eq cfg data hne, hne, fun g => mem_missing_iff cfg data g⟩

/-- Witness for C1 at a concrete schema and two concrete records. -/
theorem C1_witness :
    validate_input_data ⟨["age"], [], 5⟩ [("age", Json.num 1)] = (true, "") ∧
    validate_input_data ⟨["age"], [], 5⟩ [] =
      (false, "Missing required features: age") := by
  constructor
  · exact (C1_validate_success_and_missing ⟨["age"], [], 5⟩ [("age", Json.num 1)]).1
      (fun f hf => by
        simp only [List.mem_singleton] at hf
        subst hf
        exact ⟨Json.num 1, rfl, rfl⟩)
  · exact ((C1_validate_success_and_missing ⟨["age"], [], 5⟩ []).2 ⟨"age", by simp, rfl⟩).1

/-- C2: when every schema feature is present but the value of feature
`f` does not coerce, and every feature before `f` in schema order
coerces, validation fails with the invalid-value message naming `f` —
whatever the features after `f` hold. -/
theorem C2_first_invalid_reported (cfg : Config) (data : Record)
    (pre post : List String) (f : String)
    (hsplit : cfg.MODEL_FEATURES = pre ++ f :: post)
    (hall : ∀ g ∈ cfg.MODEL_FEATURES, (lookupRecord data g).isSome)
    (hpre : ∀ g ∈ pre, ∃ v, lookupRecord data g = some v ∧ (tryFloat v).isSome)
    (hbad : ∀ v, lookupRecord data f = some v → tryFloat v = none) :
    validate_input_data cfg data =
      (false, "Invalid value for feature '" ++ f ++ "': must be a number") := by
  have hm : cfg.MODEL_FEATURES.filter (fun g => (lookupRecord data g).isNone) = [] :=
    (filter_missing_eq_nil data cfg.MODEL_FEATURES).mpr hall
  obtain ⟨v, hv⟩ := Option.isSome_iff_exists.mp
    (hall f (by rw [hsplit]; exact List.mem_append_right pre (List.mem_cons_self f post)))
  have hfb : firstBad data cfg.MODEL_FEATURES = some f := by
    rw [hsplit, firstBad_append_good data pre (f :: post) hpre]
    simp [firstBad, hv, hbad v hv]
  unfold validate_input_data
  simp [hm, hfb]

/-- Witness for C2: the second of three features is invalid, the third
is also invalid but unreported. -/
theorem C2_witness :
    validate_input_data ⟨["a", "b", "c"], [], 5⟩
      [("a", Json.num 1), ("b", Json.str "x"), ("c", Json.null)] =
      (false, "Invalid value for feature 'b': must be a number") :=
  C2_first_invalid_reported ⟨["a", "b", "c"], [], 5⟩
    [("a", Json.num 1), ("b", Json.str "x"), ("c", Json.null)]
    ["a"] ["c"] "b" rfl
    (by decide)
    (fun g hg => by
      simp only [List.mem_singleton] at hg
      subst hg
      exact ⟨Json.num 1, rfl, rfl⟩)
    (fun v hv => by
      have h2 : some (Json.str "x") = some v := hv
      injection h2 with h2
      subst h2
      rfl)

/-- C3: a configured default does not exempt a feature from presence
validation — validation still fails when that feature is absent; in
particular the spec's scenario (schema `age, income`, default for
`income`, input providing only `age`) fails naming `income`. -/
theorem C3_defaults_not_exempt (cfg : Config) (data : Record) (f : String)
    (hmem : f ∈ cfg.MODEL_FEATURES)
    (hdef : (lookupDefault cfg.DEFAULT_VALUES f).isSome)
    (habs : lookupRecord data f = none) :
    (validate_input_data cfg data).1 = false ∧
    validate_input_data ⟨["age", "income"], [("income", 0)], 5⟩ [("age", Json.str "34")] =
      (false, "Missing required features: income") := by
  constructor
  · have hmemf : f ∈ cfg.MODEL_FEATURES.filter (fun g => (lookupRecord data g).isNone) :=
      (mem_missing_iff cfg data f).mpr ⟨hmem, habs⟩
    have hne : cfg.MODEL_FEATURES.filter (fun g => (lookupRecord data g).isNone) ≠ [] :=
      fun h => by rw [h] at hmemf; cases hmemf
    rw [validate_missing_eq cfg data hne]
  · rfl

/-- Witness for C3 at the spec's scenario. -/
theorem C3_witness :
    (validate_input_data ⟨["age", "income"], [("income", 0)], 5⟩
        [("age", Json.str "34")]).1 = false ∧
    validate_input_data ⟨["age", "income"], [("income", 0)], 5⟩ [("age", Json.str "34")] =
      (false, "Missing required features: income") :=
  C3_defaults_not_exempt ⟨["age", "income"], [("income", 0)], 5⟩
    [("age", Json.str "34")] "income" (by simp) rfl rfl

/-- Decomposition of a successful build over a duplicate-free schema:
the DataFrame has the schema as columns, index `[0]` and a single row
of the pointwise coercions. -/
theorem build_decomp (cfg : Config) (data : Record) (df : DataFrame)
    (hnd : cfg.MODEL_FEATURES.Nodup)
    (hb : build_dataframe_from_request cfg data = some df) :
    ∃ row : List ℚ,
      df = ⟨cfg.MODEL_FEATURES, [0], [row]⟩ ∧
      List.Forall₂ (fun f q => tryFloat (rawFor cfg data f) = some q)
        cfg.MODEL_FEATURES row := by
  simp only [build_dataframe_from_request] at hb
  rw [firstDedup_eq_self cfg.MODEL_FEATURES hnd] at hb
  obtain ⟨row, hrow, hdf⟩ := Option.map_eq_some'.mp hb
  exact ⟨row, hdf.symm, (mapOpt_eq_some_iff _ cfg.MODEL_FEATURES row).mp hrow⟩

/-- C4: a successful build yields a DataFrame whose columns are exactly
the schema features in schema order, whose index is `[0]`, and whose
single row has one entry per schema feature: the float coercion of the
record's entry if present, else the configured default, else `0.0`
(that is the value `rawFor` selects). -/
theorem C4_build_shape (cfg : Config) (data : Record) (df : DataFrame)
    (hnd : cfg.MODEL_FEATURES.Nodup)
    (hb : build_dataframe_from_request cfg data = some df) :
    df.columns = cfg.MODEL_FEATURES ∧ df.index = [0] ∧
    ∃ row : List ℚ, df.data = [row] ∧ row.length = cfg.MODEL_FEATURES.length ∧
      List.Forall₂ (fun f q => tryFloat (rawFor cfg data f) = some q)
        cfg.MODEL_FEATURES row := by
  obtain ⟨row, hdf, hf2⟩ := build_decomp cfg data df hnd hb
  subst hdf
  exact ⟨rfl, rfl, row, rfl, (List.Forall₂.length_eq hf2).symm, hf2⟩

/-- Witness for C4: a two-feature schema, one feature filled from the
record and one from its default. -/
theorem C4_witness :
    (DataFrame.mk ["age", "income"] [0] [[3, 2]]).columns = ["age", "income"] ∧
    (DataFrame.mk ["age", "income"] [0] [[3, 2]]).index = [0] ∧
    ∃ row : List ℚ, (DataFrame.mk ["age", "income"] [0] [[3, 2]]).data = [row] ∧
      row.length = (["age", "income"] : List String).length ∧
      List.Forall₂
        (fun f q => tryFloat (rawFor ⟨["age", "income"], [("income", 2)], 5⟩
          [("age", Json.num 3)] f) = some q)
        ["age", "income"] row :=
  C4_build_shape ⟨["age", "income"], [("income", 2)], 5⟩ [("age", Json.num 3)]
    (DataFrame.mk ["age", "income"] [0] [[3, 2]]) (by decide) rfl

/-- A record that passes validation is coercible at every schema
feature, so the builder cannot fail on it. -/
theorem build_some_of_validate (cfg : Config) (data : Record)
    (hv : (validate_input_data cfg data).1 = true) :
    ∃ df, build_dataframe_from_request cfg data = some df := by
  have hgood := (validate_fst_true_iff cfg data).mp hv
  have hall : ∀ f ∈ firstDedup cfg.MODEL_FEATURES,
      (tryFloat (rawFor cfg data f)).isSome := by
    intro f hf
    obtain ⟨v, hlv, hc⟩ := hgood f (firstDedup_subset cfg.MODEL_FEATURES f hf)
    unfold rawFor
    rw [hlv]
    exact hc
  obtain ⟨row, hrow⟩ := mapOpt_exists_of_all _ (firstDedup cfg.MODEL_FEATURES) hall
  exact ⟨⟨firstDedup cfg.MODEL_FEATURES, [0], [row]⟩, by
    simp [build_dataframe_from_request, hrow]⟩

/-- C5: on any record accepted by the validator, the coercion repeated
inside the builder succeeds for every schema feature and the builder
does not fail. -/
theorem C5_build_total_after_validate (cfg : Config) (data : Record)
    (hv : (validate_input_data cfg data).1 = true) :
    (∀ f ∈ cfg.MODEL_FEATURES, (tryFloat (rawFor cfg data f)).isSome) ∧
    ∃ df, build_dataframe_from_request cfg data = some df := by
  refine ⟨?_, build_some_of_validate cfg data hv⟩
  intro f hf
  obtain ⟨v, hlv, hc⟩ := (validate_fst_true_iff cfg data).mp hv f hf
  unfold rawFor
  rw [hlv]
  exact hc

/-- Witness for C5: a record whose value is a numeric string. -/
theorem C5_witness :
    ∃ df, build_dataframe_from_request ⟨["bmi"], [], 5⟩
      [("bmi", Json.str "21.5")] = some df :=
  (C5_build_total_after_validate ⟨["bmi"], [], 5⟩ [("bmi", Json.str "21.5")]
    (by decide)).2

/-- C6: record-style encoding wraps each feature of a record as a
one-element list under `inputs`; tabular-style encoding of a built
single record produces `columns` of schema length in schema order,
`index = [0]`, and a single data row of schema length. -/
theorem C6_encode_shapes (r : List (String × Json)) (cfg : Config) (data : Record)
    (df : DataFrame) (hnd : cfg.MODEL_FEATURES.Nodup)
    (hb : build_dataframe_from_request cfg data = some df) :
    (create_tf_serving_json r =
        Json.obj [("inputs", Json.obj (r.map (fun p => (p.1, Json.arr [p.2]))))] ∧
      (r.map (fun p => (p.1, Json.arr [p.2]))).length = r.length ∧
      ∀ f v, (f, v) ∈ r → (f, Json.arr [v]) ∈ r.map (fun p => (p.1, Json.arr [p.2]))) ∧
    (∃ row : List ℚ,
      scoreModelPayload df =
        Json.obj [("dataframe_split", Json.obj
          [("columns", Json.arr (cfg.MODEL_FEATURES.map Json.str)),
           ("index", Json.arr [Json.num 0]),
           ("data", Json.arr [Json.arr (row.map Json.num)])])] ∧
      (cfg.MODEL_FEATURES.map Json.str).length = cfg.MODEL_FEATURES.length ∧
      row.length = cfg.MODEL_FEATURES.length) := by
  refine ⟨⟨rfl, List.length_map r _, fun f v hf => List.mem_map.mpr ⟨(f, v), hf, rfl⟩⟩, ?_⟩
  obtain ⟨row, hdf, hf2⟩ := build_decomp cfg data df hnd hb
  subst hdf
  exact ⟨row, rfl, List.length_map _ _, (List.Forall₂.length_eq hf2).symm⟩

/-- Witness for C6 at a one-entry record and a two-feature build. -/
theorem C6_witness :
    create_tf_serving_json [("age", Json.num 7)] =
      Json.obj [("inputs", Json.obj [("age", Json.arr [Json.num 7])])] ∧
    scoreModelPayload (DataFrame.mk ["age", "income"] [0] [[3, 2]]) =
      Json.obj [("dataframe_split", Json.obj
        [("columns", Json.arr [Json.str "age", Json.str "income"]),
         ("index", Json.arr [Json.num 0]),
         ("data", Json.arr [Json.arr [Json.num 3, Json.num 2]])])] := by
  have h := C6_encode_shapes [("age", Json.num 7)]
    ⟨["age", "income"], [("income", 2)], 5⟩ [("age", Json.num 3)]
    (DataFrame.mk ["age", "income"] [0] [[3, 2]]) (by decide) rfl
  exact ⟨h.1.1, rfl⟩

/-- A mapping with neither extraction key is returned unchanged by the
normalizer. -/
theorem normalize_no_keys (fields : List (String × Json))
    (hp : lookupRecord fields "predictions" = none)
    (hd : lookupRecord fields "data" = none) :
    normalize (Json.obj fields) = Except.ok (Json.obj fields) := by
  have hnp : ¬((fields.map Prod.fst).contains "predictions" = true) := by
    rw [contains_eq_isSome_lookupRecord, hp]
    exact Bool.false_ne_true
  have hnd : ¬((fields.map Prod.fst).contains "data" = true) := by
    rw [contains_eq_isSome_lookupRecord, hd]
    exact Bool.false_ne_true
  have hstep : normalize (Json.obj fields) =
      if (fields.map Prod.fst).contains "predictions" then
        index0 ((lookupRecord fields "predictions").getD Json.null)
      else if (fields.map Prod.fst).contains "data" then
        index0 ((lookupRecord fields "data").getD Json.null)
      else Except.ok (Json.obj fields) := rfl
  rw [hstep, if_neg hnp, if_neg hnd]

/-- C7: the normalizer's extraction precedence — a mapping with
`predictions` yields that value's first element; otherwise a mapping
with `data` yields that value's first element; otherwise the response
is returned unchanged — together with the spec's three examples. -/
theorem C7_normalize_precedence (fields : List (String × Json)) (x : Json)
    (xs : List Json) (q : ℚ) :
    (lookupRecord fields "predictions" = some (Json.arr (x :: xs)) →
      normalize (Json.obj fields) = Except.ok x) ∧
    (lookupRecord fields "predictions" = none →
      lookupRecord fields "data" = some (Json.arr (x :: xs)) →
      normalize (Json.obj fields) = Except.ok x) ∧
    (lookupRecord fields "predictions" = none →
      lookupRecord fields "data" = none →
      normalize (Json.obj fields) = Except.ok (Json.obj fields)) ∧
    normalize (Json.num q) = Except.ok (Json.num q) ∧
    normalize (Json.obj [("predictions", Json.arr [Json.num (87/100)])]) =
      Except.ok (Json.num (87/100)) ∧
    normalize (Json.obj [("data", Json.arr [Json.arr [Json.num (1/5), Json.num (4/5)]])]) =
      Except.ok (Json.arr [Json.num (1/5), Json.num (4/5)]) ∧
    normalize (Json.obj [("foo", Json.num 1)]) =
      Except.ok (Json.obj [("foo", Json.num 1)]) := by
  refine ⟨?_, ?_, ?_, rfl, rfl, rfl, rfl⟩
  · intro hp
    have hc : ((fields.map Prod.fst).contains "predictions") = true := by
      rw [contains_eq_isSome_lookupRecord, hp]
      rfl
    simp only [normalize, hc, if_pos, hp]
    rfl
  · intro hp hd
    have hcp : ((fields.map Prod.fst).contains "predictions") = false := by
      rw [contains_eq_isSome_lookupRecord, hp]
      rfl
    have hcd : ((fields.map Prod.fst).contains "data") = true := by
      rw [contains_eq_isSome_lookupRecord, hd]
      rfl
    simp only [normalize, hcp, hcd, hd]
    rfl
  · exact fun hp hd => normalize_no_keys fields hp hd

/-- Witness for C7: the three extraction branches at concrete
responses. -/
theorem C7_witness :
    normalize (Json.obj [("predictions", Json.arr [Json.num 1])]) =
      Except.ok (Json.num 1) ∧
    normalize (Json.obj [("other", Json.null), ("data", Json.arr [Json.num 2])]) =
      Except.ok (Json.num 2) ∧
    normalize (Json.obj [("status", Json.str "ok")]) =
      Except.ok (Json.obj [("status", Json.str "ok")]) :=
  ⟨(C7_normalize_precedence [("predictions", Json.arr [Json.num 1])]
      (Json.num 1) [] 0).1 rfl,
   ((C7_normalize_precedence [("other", Json.null), ("data", Json.arr [Json.num 2])]
      (Json.num 2) [] 0).2.1 rfl rfl),
   ((C7_normalize_precedence [("status", Json.str "ok")]
      Json.null [] 0).2.2.1 rfl rfl)⟩

/-- C8 counterexample: a response carrying `predictions` bound to an
empty list makes the extraction raise `IndexError` — the normalizer is
not total. -/
theorem C8_counterexample :
    normalize (Json.obj [("predictions", Json.arr [])]) =
      Except.error "list index out of range" := rfl

/-- C8 (amended): the normalizer returns without raising whenever the
response is not a mapping holding `predictions` or `data` (absence of
both keys falls through to returning the response unchanged); but when
the matched key holds an empty list the extraction raises `IndexError`,
so the normalizer is not total. -/
theorem C8_normalize_totality_limited (j : Json) (fields : List (String × Json))
    (hno : ∀ fs, j = Json.obj fs →
      lookupRecord fs "predictions" = none ∧ lookupRecord fs "data" = none)
    (hp : lookupRecord fields "predictions" = some (Json.arr [])) :
    normalize j = Except.ok j ∧
    normalize (Json.obj fields) = Except.error "list index out of range" := by
  constructor
  · cases j with
    | obj fs => exact normalize_no_keys fs (hno fs rfl).1 (hno fs rfl).2
    | null => rfl
    | bool b => rfl
    | num q => rfl
    | str s => rfl
    | arr items => rfl
  · have hc : ((fields.map Prod.fst).contains "predictions") = true := by
      rw [contains_eq_isSome_lookupRecord, hp]
      rfl
    have hstep : normalize (Json.obj fields) =
        if (fields.map Prod.fst).contains "predictions" then
          index0 ((lookupRecord fields "predictions").getD Json.null)
        else if (fields.map Prod.fst).contains "data" then
          index0 ((lookupRecord fields "data").getD Json.null)
        else Except.ok (Json.obj fields) := rfl
    rw [hstep, if_pos hc, hp]
    rfl

/-- Witness for C8 (amended) at a key-free mapping and an
empty-predictions mapping. -/
theorem C8_witness :
    normalize (Json.obj [("foo", Json.num 1)]) =
      Except.ok (Json.obj [("foo", Json.num 1)]) ∧
    normalize (Json.obj [("predictions", Json.arr [])]) =
      Except.error "list index out of range" :=
  C8_normalize_totality_limited (Json.obj [("foo", Json.num 1)])
    [("predictions", Json.arr [])]
    (fun fs hfs => by
      injection hfs with h
      subst h
      exact ⟨rfl, rfl⟩)
    rfl

/-- C9 counterexample: a connection failure on the outbound call is
answered with HTTP 400 and the generic error envelope, not 500 —
`score_model` re-raises `ConnectionError` as a plain `Exception`, so
`predict`'s `RequestException` (500) handler never sees it. -/
theorem C9_counterexample :
    predict ⟨["age"], [], 5⟩ [("age", Json.num 1)] PostResult.connError =
      (400, errJson "An error occurred: Failed to connect to the model endpoint. Check your internet connection and endpoint URL.") ∧
    (predict ⟨["age"], [], 5⟩ [("age", Json.num 1)] PostResult.connError).1 ≠ 500 :=
  ⟨rfl, by decide⟩

/-- C9 (amended): for every nonempty record that passes validation, a
connection failure yields status 400 with the generic message wrapping
`score_model`'s connection text; the 500 network-error branch is not
taken for connection failures. -/
theorem C9_connError_maps_to_400 (cfg : Config) (data : Record)
    (hne : data ≠ []) (hv : (validate_input_data cfg data).1 = true) :
    predict cfg data PostResult.connError =
      (400, errJson "An error occurred: Failed to connect to the model endpoint. Check your internet connection and endpoint URL.") := by
  obtain ⟨df, hdf⟩ := build_some_of_validate cfg data hv
  have hie : List.isEmpty data = false := by
    cases data with
    | nil => exact absurd rfl hne
    | cons a l => rfl
  simp only [predict, hie, Bool.false_eq_true, if_false, hv, Bool.not_true, hdf,
    score_model]
  rfl

/-- Witness for C9 (amended). -/
theorem C9_witness :
    predict ⟨["age"], [], 7⟩ [("age", Json.num 2)] PostResult.connError =
      (400, errJson "An error occurred: Failed to connect to the model endpoint. Check your internet connection and endpoint URL.") :=
  C9_connError_maps_to_400 ⟨["age"], [], 7⟩ [("age", Json.num 2)]
    (List.cons_ne_nil _ _) (by decide)

/-- C10: a request body parsing to the empty JSON object is answered
with 400 and the no-input message, for every configuration and network
outcome; that envelope is never the missing-features envelope, whatever
the feature list, so validation is not reached. -/
theorem C10_empty_body_short_circuits (cfg : Config) (net : PostResult) (s : String) :
    predict cfg [] net = (400, errJson "No data provided in request body") ∧
    errJson "No data provided in request body" ≠
      errJson ("Missing required features: " ++ s) := by
  constructor
  · rfl
  · intro h
    have h2 : "No data provided in request body" = "Missing required features: " ++ s := by
      simpa [errJson] using h
    have h3 := congrArg String.data h2
    rw [String.data_append] at h3
    have h4 := congrArg List.head? h3
    have h5 : (some 'N' : Option Char) = some 'M' := h4
    exact absurd h5 (by decide)

/-- Witness for C10 at a concrete configuration, network outcome and
suffix. -/
theorem C10_witness :
    predict ⟨["age"], [], 5⟩ [] PostResult.timeout =
      (400, errJson "No data provided in request body") ∧
    errJson "No data provided in request body" ≠
      errJson ("Missing required features: " ++ "age") :=
  C10_empty_body_short_circuits ⟨["age"], [], 5⟩ PostResult.timeout "age"

end DPA
